/-
Verification development for the calendar booking backend
(`src/backend/server.js` together with the schema and seed data in
`src/backend/db.sql`).

The backend state is two tables, `timeslots` and `bookings`, modelled as
lists of records.  Each HTTP handler of `server.js` is translated into a
pure function from a `DBState` (and the request parameters, with the ids
and timestamps the handler generates passed in explicitly) to an
`OpResult`: the response, the state after the transaction, and the list
of Socket.IO events emitted after commit, in emission order.  Dates and
times are the opaque strings the code stores (`YYYY-MM-DD`, `HH:MM`),
compared with the lexicographic string order, exactly as the Postgres
`TEXT` comparisons in the handlers' SQL do.
-/
import Mathlib

set_option maxRecDepth 10000

deriving instance DecidableEq for Except

/-- A row of the `timeslots` table (db.sql). -/
structure Timeslot where
  timeslot_id : String
  slot_date : String
  start_time : String
  end_time : String
  is_booked : Bool
deriving Repr, DecidableEq

/-- A row of the `bookings` table (db.sql). -/
structure Booking where
  booking_id : String
  timeslot_id : String
  full_name : String
  email : String
  phone : Option String
  appointment_notes : Option String
  booking_status : String
  created_at : String
deriving Repr, DecidableEq

/-- The database state: the two tables the handlers touch. -/
structure DBState where
  timeslots : List Timeslot
  bookings : List Booking
deriving Repr, DecidableEq

/-- The error taxonomy of the spec, carrying the handler's message.
`server.js` surfaces all of these as HTTP 400 (500 for storage
failures); the constructor records which taxonomy kind the message is. -/
inductive ApiError where
  | invalidInput (msg : String)
  | notFound (msg : String)
  | conflict (msg : String)
  | storageFailure (msg : String)
deriving Repr, DecidableEq

/-- A Socket.IO event emitted by a handler after commit.
`timeslotUpdate` carries the slot snapshot the handler sends;
`timeslotDeleted` is the `{timeslot_id, deleted: true}` payload. -/
inductive Event where
  | timeslotUpdate (slot : Timeslot)
  | timeslotDeleted (timeslot_id : String)
  | bookingUpdate (booking_id timeslot_id booking_status : String)
deriving Repr, DecidableEq

/-- Outcome of one handler invocation: response, post-transaction state
(unchanged on rollback), and the events emitted, in order. -/
structure OpResult (α : Type) where
  result : Except ApiError α
  state : DBState
  events : List Event
deriving Repr

/-- JS `x || null` applied to an optional request field: an absent or
empty string becomes null. -/
def orNull : Option String → Option String
  | none => none
  | some s => if s = "" then none else some s

/-- JS truthiness of an optional string request field. -/
def jsTruthy : Option String → Bool
  | none => false
  | some s => decide (s ≠ "")

/-- JS `x || d` for an optional string request field with default `d`. -/
def jsOr : Option String → String → String
  | none, d => d
  | some s, d => if s = "" then d else s

/-- Lexicographic strict comparison of character lists: the order
Postgres applies to the stored `TEXT` times and dates. -/
def charsLt : List Char → List Char → Bool
  | [], [] => false
  | [], _ :: _ => true
  | _ :: _, [] => false
  | a :: as, b :: bs => if a < b then true else if b < a then false else charsLt as bs

/-- Strict lexicographic order on the stored strings. -/
def strLt (a b : String) : Bool :=
  charsLt a.data b.data

/-- Non-strict lexicographic order on the stored strings. -/
def strLe (a b : String) : Bool :=
  !(strLt b a)

/-- The overlap test the two admin SQL queries apply between an existing
slot interval `[s1,e1)` and a candidate interval `[s2,e2)`:
`start_time < $end AND end_time > $start`, i.e. `s1 < e2 AND s2 < e1`
on the stored strings. -/
def overlapB (s1 e1 s2 e2 : String) : Bool :=
  strLt s1 e2 && strLt s2 e1

/-- The denormalized confirmation snapshot `POST /api/bookings` returns. -/
structure BookingDetails where
  timeslot_id : String
  full_name : String
  email : String
  slot_date : String
  start_time : String
  end_time : String
deriving Repr, DecidableEq

/-- Successful response of `POST /api/bookings`. -/
structure CreateBookingOk where
  booking_id : String
  booking_details : BookingDetails
deriving Repr, DecidableEq

/-- `POST /api/bookings` (server.js lines 149-229).  `booking_id` and
`created_at` stand for the `crypto.randomUUID()` and
`new Date().toISOString()` values the handler generates. -/
def createBooking (st : DBState) (timeslot_id full_name email : String)
    (phone appointment_notes : Option String)
    (booking_id created_at : String) : OpResult CreateBookingOk :=
  if timeslot_id = "" ∨ full_name = "" ∨ email = "" then
    ⟨.error (.invalidInput "Missing required fields: timeslot_id, full_name, email"), st, []⟩
  else
    match st.timeslots.find? (fun t => decide (t.timeslot_id = timeslot_id)) with
    | none => ⟨.error (.notFound "Invalid timeslot_id"), st, []⟩
    | some timeslot =>
      if timeslot.is_booked then
        ⟨.error (.conflict "Timeslot already booked"), st, []⟩
      else
        let newSlots := st.timeslots.map fun t =>
          if t.timeslot_id = timeslot_id then { t with is_booked := true } else t
        let booking : Booking :=
          ⟨booking_id, timeslot_id, full_name, email, orNull phone,
           orNull appointment_notes, "active", created_at⟩
        let st' : DBState := ⟨newSlots, st.bookings ++ [booking]⟩
        let slotEvent := Event.timeslotUpdate
          ⟨timeslot.timeslot_id, timeslot.slot_date, timeslot.start_time,
           timeslot.end_time, true⟩
        let bookingEvent := Event.bookingUpdate booking_id timeslot_id "active"
        ⟨.ok ⟨booking_id,
              ⟨timeslot_id, full_name, email, timeslot.slot_date,
               timeslot.start_time, timeslot.end_time⟩⟩,
         st', [slotEvent, bookingEvent]⟩

/-- `PUT /api/admin/bookings/:booking_id/cancel` (server.js lines
430-474).  Note the emission order of the source: `booking_update`
first, then the re-queried slot snapshot as `timeslot_update` (emitted
only if the re-query finds the row). -/
def cancelBooking (st : DBState) (booking_id : String) : OpResult String :=
  match st.bookings.find? (fun b => decide (b.booking_id = booking_id)) with
  | none => ⟨.error (.notFound "Booking not found"), st, []⟩
  | some booking =>
    if booking.booking_status = "canceled" then
      ⟨.error (.conflict "Booking is already canceled"), st, []⟩
    else
      let newBookings := st.bookings.map fun b =>
        if b.booking_id = booking_id then { b with booking_status := "canceled" } else b
      let newSlots := st.timeslots.map fun t =>
        if t.timeslot_id = booking.timeslot_id then { t with is_booked := false } else t
      let st' : DBState := ⟨newSlots, newBookings⟩
      let bookingEvent := Event.bookingUpdate booking_id booking.timeslot_id "canceled"
      let slotEvents :=
        match st'.timeslots.find? (fun t => decide (t.timeslot_id = booking.timeslot_id)) with
        | some t => [Event.timeslotUpdate t]
        | none => []
      ⟨.ok "Booking canceled and timeslot updated successfully", st',
       bookingEvent :: slotEvents⟩

/-- `POST /api/admin/timeslots` (server.js lines 273-309); `timeslot_id`
stands for the generated `crypto.randomUUID()`. -/
def createTimeslot (st : DBState) (slot_date start_time end_time : String)
    (timeslot_id : String) : OpResult String :=
  if slot_date = "" ∨ start_time = "" ∨ end_time = "" then
    ⟨.error (.invalidInput "Missing required fields: slot_date, start_time, end_time"), st, []⟩
  else if st.timeslots.any (fun t =>
      decide (t.slot_date = slot_date) &&
      overlapB t.start_time t.end_time start_time end_time) then
    ⟨.error (.conflict "Overlapping timeslot exists"), st, []⟩
  else
    let t : Timeslot := ⟨timeslot_id, slot_date, start_time, end_time, false⟩
    ⟨.ok timeslot_id, ⟨st.timeslots ++ [t], st.bookings⟩, [Event.timeslotUpdate t]⟩

/-- `PUT /api/admin/timeslots/:timeslot_id` (server.js lines 316-365). -/
def updateTimeslot (st : DBState) (timeslot_id : String)
    (start_time end_time : Option String) : OpResult String :=
  if ¬ jsTruthy start_time ∧ ¬ jsTruthy end_time then
    ⟨.error (.invalidInput "At least one field (start_time or end_time) is required to update"),
     st, []⟩
  else
    match st.timeslots.find? (fun t => decide (t.timeslot_id = timeslot_id)) with
    | none => ⟨.error (.notFound "Timeslot not found"), st, []⟩
    | some cur =>
      let new_start_time := jsOr start_time cur.start_time
      let new_end_time := jsOr end_time cur.end_time
      if st.timeslots.any (fun t =>
          decide (t.slot_date = cur.slot_date) &&
          decide (t.timeslot_id ≠ timeslot_id) &&
          overlapB t.start_time t.end_time new_start_time new_end_time) then
        ⟨.error (.conflict "Overlapping timeslot exists"), st, []⟩
      else
        let newSlots := st.timeslots.map fun t =>
          if t.timeslot_id = timeslot_id then
            { t with start_time := new_start_time, end_time := new_end_time }
          else t
        ⟨.ok "Timeslot updated successfully", ⟨newSlots, st.bookings⟩,
         [Event.timeslotUpdate
           ⟨timeslot_id, cur.slot_date, new_start_time, new_end_time, cur.is_booked⟩]⟩

/-- `DELETE /api/admin/timeslots/:timeslot_id` (server.js lines
373-394), as written in the handler: refuse on an active booking,
otherwise delete the row. -/
def deleteTimeslot (st : DBState) (timeslot_id : String) : OpResult String :=
  if st.bookings.any (fun b =>
      decide (b.timeslot_id = timeslot_id) && decide (b.booking_status = "active")) then
    ⟨.error (.conflict "Cannot delete timeslot with active booking"), st, []⟩
  else
    ⟨.ok "Timeslot deleted successfully",
     ⟨st.timeslots.filter (fun t => decide (¬ t.timeslot_id = timeslot_id)), st.bookings⟩,
     [Event.timeslotDeleted timeslot_id]⟩

/-- The same DELETE handler as executed against the db.sql schema: the
`fk_timeslot` foreign key on `bookings` (db.sql lines 24-36) has no ON
DELETE action, so Postgres rejects the `DELETE FROM timeslots` whenever
ANY booking row — active or canceled — still references the slot; the
handler's catch block surfaces that as a storage failure (HTTP 500). -/
def deleteTimeslotFK (st : DBState) (timeslot_id : String) : OpResult String :=
  if st.bookings.any (fun b =>
      decide (b.timeslot_id = timeslot_id) && decide (b.booking_status = "active")) then
    ⟨.error (.conflict "Cannot delete timeslot with active booking"), st, []⟩
  else if st.bookings.any (fun b => decide (b.timeslot_id = timeslot_id)) then
    ⟨.error (.storageFailure "foreign key constraint fk_timeslot violated"), st, []⟩
  else
    ⟨.ok "Timeslot deleted successfully",
     ⟨st.timeslots.filter (fun t => decide (¬ t.timeslot_id = timeslot_id)), st.bookings⟩,
     [Event.timeslotDeleted timeslot_id]⟩

/-- `p` is a prefix of `s`, on the underlying character lists (model of
`slot_date LIKE 'stem%'`). -/
def strStartsWith (p s : String) : Bool :=
  p.data.isPrefixOf s.data

/-- One row of the `GET /api/calendar` response. -/
structure CalendarEntry where
  slot_date : String
  total_slots : Nat
  booked_slots : Nat
  available : Bool
deriving Repr, DecidableEq

/-- JS `month.toString().padStart(2, "0")`. -/
def padMonth (m : String) : String :=
  if m.length ≥ 2 then m else ⟨List.replicate (2 - m.length) '0'⟩ ++ m

/-- The `LIKE` pattern stem `"YYYY-MM-"`; a slot is in the month iff its
`slot_date` starts with this stem. -/
def monthStem (year month : String) : String :=
  year ++ "-" ++ padMonth month ++ "-"

/-- Insert a date into an already ascending list (model of ORDER BY). -/
def insertSorted (d : String) : List String → List String
  | [] => [d]
  | x :: xs => if strLe d x then d :: x :: xs else x :: insertSorted d xs

/-- Sort dates ascending (model of `ORDER BY slot_date`). -/
def sortDates : List String → List String
  | [] => []
  | x :: xs => insertSorted x (sortDates xs)

/-- `GET /api/calendar` (server.js lines 84-112): group the month's
slots by date, count rows and booked rows, order by date. -/
def getCalendar (st : DBState) (year month : String) : List CalendarEntry :=
  let stem := monthStem year month
  let matching := st.timeslots.filter fun t => strStartsWith stem t.slot_date
  let dates := (matching.map (·.slot_date)).dedup
  (sortDates dates).map fun d =>
    let slots := matching.filter fun t => decide (t.slot_date = d)
    let total := slots.length
    let booked := (slots.filter (·.is_booked)).length
    ⟨d, total, booked, decide (total - booked > 0)⟩

/-- The seed database of db.sql (timeslots ts1-ts7, bookings 1-3). -/
def initDB : DBState :=
  ⟨[⟨"ts1", "2023-10-15", "09:00", "09:30", true⟩,
    ⟨"ts2", "2023-10-15", "09:30", "10:00", false⟩,
    ⟨"ts3", "2023-10-15", "10:00", "10:30", true⟩,
    ⟨"ts4", "2023-10-15", "10:30", "11:00", false⟩,
    ⟨"ts5", "2023-10-16", "11:00", "11:30", false⟩,
    ⟨"ts6", "2023-10-16", "11:30", "12:00", false⟩,
    ⟨"ts7", "2023-10-16", "12:00", "12:30", false⟩],
   [⟨"booking1", "ts1", "Alice Johnson", "alice.johnson@gmail.com", some "555-1234",
     some "Consultation appointment", "active", "2023-10-15 08:55:00"⟩,
    ⟨"booking2", "ts3", "Bob Smith", "bob.smith@gmail.com", none,
     some "Follow up consultation", "active", "2023-10-15 09:55:00"⟩,
    ⟨"booking3", "ts7", "Charlie Davis", "charlie.davis@example.net", some "555-5678",
     some "Initial appointment request", "canceled", "2023-10-16 11:55:00"⟩]⟩

/-- The claim's system-wide invariant: a slot's `is_booked` flag is set
iff some booking with status `'active'` references it. -/
def BookedIffActive (st : DBState) : Prop :=
  ∀ t ∈ st.timeslots,
    (t.is_booked = true ↔
      ∃ b ∈ st.bookings, b.timeslot_id = t.timeslot_id ∧ b.booking_status = "active")

/-- The inductive invariant of the database: primary keys are unique
(`timeslot_id` and `booking_id` are PRIMARY KEY columns in db.sql),
statuses are only ever `'active'` or `'canceled'` (the only values the
code writes; db.sql seeds no others), the booked flag matches the active
bookings, and a slot has at most one active booking. -/
def StrongInv (st : DBState) : Prop :=
  (st.timeslots.map (·.timeslot_id)).Nodup ∧
  (st.bookings.map (·.booking_id)).Nodup ∧
  (∀ b ∈ st.bookings, b.booking_status = "active" ∨ b.booking_status = "canceled") ∧
  BookedIffActive st ∧
  (∀ b₁ ∈ st.bookings, ∀ b₂ ∈ st.bookings, b₁.timeslot_id = b₂.timeslot_id →
    b₁.booking_status = "active" → b₂.booking_status = "active" → b₁ = b₂)

/-- One committed request of the backend: the state moves to whatever
state the invoked handler leaves behind (unchanged when the handler
rolls back).  The generated ids stand for `crypto.randomUUID()` values;
the side conditions record their freshness (the spec's "freshly
generated unique id", and the PRIMARY KEY constraints of db.sql). -/
inductive Step : DBState → DBState → Prop
  | book (s : DBState) (tid name email : String) (phone notes : Option String)
      (nid cat : String) (hfresh : ∀ b ∈ s.bookings, b.booking_id ≠ nid) :
      Step s (createBooking s tid name email phone notes nid cat).state
  | cancel (s : DBState) (bid : String) :
      Step s (cancelBooking s bid).state
  | slotCreate (s : DBState) (d st_ et_ nid : String)
      (hfreshT : ∀ t ∈ s.timeslots, t.timeslot_id ≠ nid)
      (hfreshB : ∀ b ∈ s.bookings, b.timeslot_id ≠ nid) :
      Step s (createTimeslot s d st_ et_ nid).state
  | slotEdit (s : DBState) (tid : String) (st_ et_ : Option String) :
      Step s (updateTimeslot s tid st_ et_).state
  | slotDelete (s : DBState) (tid : String) :
      Step s (deleteTimeslot s tid).state

/-- States reachable from the seed database by committed requests. -/
def Reachable (st : DBState) : Prop :=
  Relation.ReflTransGen Step initDB st

/-- One booking attempt's request payload (the caller-supplied fields
plus the id and timestamp the handler would generate for it). -/
structure Attempt where
  full_name : String
  email : String
  phone : Option String
  notes : Option String
  booking_id : String
  created_at : String
deriving Repr, DecidableEq

/-- Run a sequence of `POST /api/bookings` requests for the same
`timeslot_id` in the serialization order that the row-level `FOR
UPDATE` lock imposes on concurrent attempts, collecting each response. -/
def runAttempts (st : DBState) (tid : String) :
    List Attempt → DBState × List (Except ApiError CreateBookingOk)
  | [] => (st, [])
  | a :: as =>
    let r := createBooking st tid a.full_name a.email a.phone a.notes a.booking_id a.created_at
    let rest := runAttempts r.state tid as
    (rest.1, r.result :: rest.2)

/-- Number of active bookings referencing a slot. -/
def activeCount (st : DBState) (tid : String) : Nat :=
  (st.bookings.filter fun b =>
    decide (b.timeslot_id = tid) && decide (b.booking_status = "active")).length

/-- Whether a handler response is the InvalidInput taxonomy kind. -/
def isInvalidInput {α : Type} : Except ApiError α → Bool
  | .error (.invalidInput _) => true
  | _ => false

example : (createBooking initDB "ts2" "Jane Doe" "jane@x.com" none none "b9" "t").result =
    .ok ⟨"b9", ⟨"ts2", "Jane Doe", "jane@x.com", "2023-10-15", "09:30", "10:00"⟩⟩ := by
  decide

example : (createTimeslot initDB "2023-10-15" "09:45" "10:15" "n1").result =
    .error (.conflict "Overlapping timeslot exists") := by decide

example : (createTimeslot initDB "2023-10-15" "10:00" "10:30" "n1").result =
    .error (.conflict "Overlapping timeslot exists") := by decide

example : (getCalendar initDB "2023" "10") =
    [⟨"2023-10-15", 4, 2, true⟩, ⟨"2023-10-16", 3, 0, true⟩] := by decide

/-! ### Order facts about the lexicographic comparison -/

theorem charsLt_irrefl (l : List Char) : charsLt l l = false := by
  induction l with
  | nil => rfl
  | cons a as ih => simp [charsLt, lt_self_iff_false, ih]

theorem charsLt_trans (a : List Char) : ∀ b c : List Char,
    charsLt a b = true → charsLt b c = true → charsLt a c = true := by
  induction a with
  | nil =>
    intro b c hab hbc
    cases c with
    | nil =>
      cases b with
      | nil => exact hab
      | cons y ys => simp [charsLt] at hbc
    | cons z zs => rfl
  | cons x xs ih =>
    intro b c hab hbc
    cases b with
    | nil => simp [charsLt] at hab
    | cons y ys =>
      cases c with
      | nil => simp [charsLt] at hbc
      | cons z zs =>
        by_cases hxy : x < y
        · by_cases hyz : y < z
          · simp [charsLt, lt_trans hxy hyz]
          · by_cases hzy : z < y
            · simp [charsLt, hyz, hzy] at hbc
            · have hyz' : y = z := le_antisymm (not_lt.mp hzy) (not_lt.mp hyz)
              subst hyz'
              simp [charsLt, hxy]
        · by_cases hyx : y < x
          · simp [charsLt, hxy, hyx] at hab
          · have hxy' : x = y := le_antisymm (not_lt.mp hyx) (not_lt.mp hxy)
            subst hxy'
            have h1 : charsLt xs ys = true := by
              simpa [charsLt, lt_self_iff_false] using hab
            by_cases hxz : x < z
            · simp [charsLt, hxz]
            · by_cases hzx : z < x
              · simp [charsLt, hxz, hzx] at hbc
              · have h2 : charsLt ys zs = true := by
                  simpa [charsLt, hxz, hzx] using hbc
                simp [charsLt, hxz, hzx, ih ys zs h1 h2]

theorem charsLt_total (a : List Char) : ∀ b : List Char,
    charsLt a b = true ∨ charsLt b a = true ∨ a = b := by
  induction a with
  | nil =>
    intro b
    cases b with
    | nil => right; right; rfl
    | cons y ys => left; rfl
  | cons x xs ih =>
    intro b
    cases b with
    | nil => right; left; rfl
    | cons y ys =>
      rcases lt_trichotomy x y with h | h | h
      · left; simp [charsLt, h]
      · subst h
        rcases ih ys with h2 | h2 | h2
        · left; simp [charsLt, lt_self_iff_false, h2]
        · right; left; simp [charsLt, lt_self_iff_false, h2]
        · right; right; simp [h2]
      · right; left; simp [charsLt, h]

theorem strLt_irrefl (s : String) : strLt s s = false :=
  charsLt_irrefl s.data

theorem strLt_trans {a b c : String} (hab : strLt a b = true) (hbc : strLt b c = true) :
    strLt a c = true :=
  charsLt_trans a.data b.data c.data hab hbc

theorem strLt_total (a b : String) : strLt a b = true ∨ strLt b a = true ∨ a = b := by
  rcases charsLt_total a.data b.data with h | h | h
  · exact Or.inl h
  · exact Or.inr (Or.inl h)
  · exact Or.inr (Or.inr (String.ext h))

theorem strLe_trans {a b c : String} (hab : strLe a b = true) (hbc : strLe b c = true) :
    strLe a c = true := by
  simp only [strLe, Bool.not_eq_true'] at hab hbc ⊢
  cases h : strLt c a with
  | false => rfl
  | true =>
    exfalso
    rcases strLt_total b c with h1 | h1 | h1
    · exact absurd (strLt_trans h1 h) (by simp [hab])
    · exact absurd h1 (by simp [hbc])
    · subst h1; exact absurd h (by simp [hab])

theorem strLe_of_not_strLe {a b : String} (h : ¬ strLe a b = true) : strLe b a = true := by
  have h' : strLt b a = true := by
    cases hx : strLt b a with
    | true => rfl
    | false => exact absurd (by simp [strLe, hx]) h
  simp only [strLe, Bool.not_eq_true']
  cases h2 : strLt a b with
  | false => rfl
  | true =>
    exfalso
    have := strLt_trans h2 h'
    simp [strLt_irrefl] at this

/-! ### C2: the interval overlap check -/

/-- C2: for every candidate `(date, start, end)` and every existing slot
on the same date, the slot-creation handler reports a conflict exactly
when `s1 < e2 AND s2 < e1` holds between the existing interval
`[s1,e1)` and the candidate `[s2,e2)`; the overlap relation is exactly
that formula, it is symmetric, and adjacent intervals sharing an
endpoint (`e1 = s2`, or `e2 = s1`) never overlap. -/
theorem overlap_check_spec (st : DBState) (d s e nid : String)
    (hd : d ≠ "") (hs : s ≠ "") (he : e ≠ "") :
    ((createTimeslot st d s e nid).result = .error (.conflict "Overlapping timeslot exists") ↔
      ∃ t ∈ st.timeslots, t.slot_date = d ∧ overlapB t.start_time t.end_time s e = true) ∧
    (∀ s1 e1 s2 e2 : String,
      overlapB s1 e1 s2 e2 = true ↔ (strLt s1 e2 = true ∧ strLt s2 e1 = true)) ∧
    (∀ s1 e1 s2 e2 : String, overlapB s1 e1 s2 e2 = overlapB s2 e2 s1 e1) ∧
    (∀ s1 e1 e2 : String, overlapB s1 e1 e1 e2 = false) ∧
    (∀ s1 e1 s2 : String, overlapB s1 e1 s2 s1 = false) := by
  refine ⟨?_, ?_, ?_, ?_, ?_⟩
  · unfold createTimeslot
    simp only [hd, hs, he, or_self, if_false, false_or, List.any_eq_true, Bool.and_eq_true,
      decide_eq_true_eq]
    by_cases hc : ∃ t ∈ st.timeslots, t.slot_date = d ∧ overlapB t.start_time t.end_time s e = true
    · simp [hc]
    · simp [hc]
  · intro s1 e1 s2 e2
    simp [overlapB, Bool.and_eq_true]
  · intro s1 e1 s2 e2
    simp [overlapB, Bool.and_comm]
  · intro s1 e1 e2
    simp [overlapB, strLt_irrefl]
  · intro s1 e1 s2
    simp [overlapB, strLt_irrefl]

/-- Witness for C2 at the seed data: creating 09:45-10:15 on 2023-10-15
conflicts with ts2 (09:30-10:00). -/
theorem overlap_check_spec_witness :
    (createTimeslot initDB "2023-10-15" "09:45" "10:15" "n1").result =
      .error (.conflict "Overlapping timeslot exists") :=
  ((overlap_check_spec initDB "2023-10-15" "09:45" "10:15" "n1" (by decide) (by decide)
      (by decide)).1).mpr
    ⟨⟨"ts2", "2023-10-15", "09:30", "10:00", false⟩, by decide, by decide, by decide⟩

/-! ### C3: CreateBooking -/

/-- C3: with non-empty required fields, `POST /api/bookings` fails with
NotFound when no slot has the requested id and Conflict when the slot is
already booked, leaving the state unchanged in both cases; otherwise it
marks the slot booked, appends exactly one new booking row with status
`'active'`, the freshly generated id and the creation timestamp, and
returns the booking id with the denormalized snapshot of name, email
and the slot's date and times. -/
theorem createBooking_spec (st : DBState) (tid name email : String)
    (phone notes : Option String) (nid cat : String)
    (htid : tid ≠ "") (hname : name ≠ "") (hemail : email ≠ "") :
    ((∀ t ∈ st.timeslots, t.timeslot_id ≠ tid) →
      (createBooking st tid name email phone notes nid cat).result =
        .error (.notFound "Invalid timeslot_id") ∧
      (createBooking st tid name email phone notes nid cat).state = st ∧
      (createBooking st tid name email phone notes nid cat).events = []) ∧
    (∀ ts, st.timeslots.find? (fun t => decide (t.timeslot_id = tid)) = some ts →
      (ts.is_booked = true →
        (createBooking st tid name email phone notes nid cat).result =
          .error (.conflict "Timeslot already booked") ∧
        (createBooking st tid name email phone notes nid cat).state = st ∧
        (createBooking st tid name email phone notes nid cat).events = []) ∧
      (ts.is_booked = false →
        (createBooking st tid name email phone notes nid cat).result =
          .ok ⟨nid, ⟨tid, name, email, ts.slot_date, ts.start_time, ts.end_time⟩⟩ ∧
        (createBooking st tid name email phone notes nid cat).state.bookings =
          st.bookings ++ [⟨nid, tid, name, email, orNull phone, orNull notes, "active", cat⟩] ∧
        (createBooking st tid name email phone notes nid cat).state.timeslots =
          st.timeslots.map (fun t =>
            if t.timeslot_id = tid then { t with is_booked := true } else t) ∧
        (∀ t ∈ (createBooking st tid name email phone notes nid cat).state.timeslots,
          t.timeslot_id = tid → t.is_booked = true))) := by
  unfold createBooking
  simp only [htid, hname, hemail, or_self, if_false, false_or]
  constructor
  · intro hnone
    have hfind : st.timeslots.find? (fun t => decide (t.timeslot_id = tid)) = none := by
      simp only [List.find?_eq_none, decide_eq_true_eq]
      exact hnone
    rw [hfind]
    exact ⟨rfl, rfl, rfl⟩
  · intro ts hfind
    rw [hfind]
    constructor
    · intro hb
      simp only [hb, if_true]
      exact ⟨by trivial, by trivial, by trivial⟩
    · intro hb
      simp only [hb, Bool.false_eq_true, if_false]
      refine ⟨by trivial, by trivial, by trivial, ?_⟩
      intro t ht htid'
      simp only [List.mem_map] at ht
      rcases ht with ⟨t0, _, ht0⟩
      by_cases h0 : t0.timeslot_id = tid
      · rw [← ht0]; simp [h0]
      · rw [← ht0] at htid'
        simp [h0] at htid'

/-- Witness for C3: booking the free seed slot ts2 succeeds and returns
the denormalized snapshot. -/
theorem createBooking_spec_witness :
    (createBooking initDB "ts2" "Jane Doe" "jane@x.com" none none "b9" "t").result =
      .ok ⟨"b9", ⟨"ts2", "Jane Doe", "jane@x.com", "2023-10-15", "09:30", "10:00"⟩⟩ :=
  (((createBooking_spec initDB "ts2" "Jane Doe" "jane@x.com" none none "b9" "t"
      (by decide) (by decide) (by decide)).2
    ⟨"ts2", "2023-10-15", "09:30", "10:00", false⟩ (by decide)).2 (by decide)).1

/-! ### C4: CancelBooking -/

/-- Cancelling rewrites exactly the rows whose `booking_id` matches, so
the canceled row is what a later `find?` by the same id retrieves. -/
theorem find?_map_cancel (l : List Booking) (bid : String) (bk : Booking)
    (h : l.find? (fun b => decide (b.booking_id = bid)) = some bk) :
    (l.map fun b =>
        if b.booking_id = bid then { b with booking_status := "canceled" } else b).find?
      (fun b => decide (b.booking_id = bid)) =
      some { bk with booking_status := "canceled" } := by
  rw [List.find?_map]
  have hcomp : ((fun b => decide (b.booking_id = bid)) ∘
      (fun b => if b.booking_id = bid then { b with booking_status := "canceled" } else b)) =
      (fun b : Booking => decide (b.booking_id = bid)) := by
    funext b
    by_cases hb : b.booking_id = bid <;> simp [hb]
  rw [hcomp, h]
  have hbid : bk.booking_id = bid := by
    have := List.find?_some h
    simpa using this
  simp [hbid]

/-- C4: cancel fails with NotFound for an unknown booking id; a booking
already `'canceled'` yields Conflict with no state change; an `'active'`
booking is set to `'canceled'` and its slot freed, and cancelling the
same id again afterwards yields Conflict without further mutation. -/
theorem cancelBooking_spec (st : DBState) (bid : String) :
    ((∀ b ∈ st.bookings, b.booking_id ≠ bid) →
      (cancelBooking st bid).result = .error (.notFound "Booking not found") ∧
      (cancelBooking st bid).state = st ∧ (cancelBooking st bid).events = []) ∧
    (∀ bk, st.bookings.find? (fun b => decide (b.booking_id = bid)) = some bk →
      (bk.booking_status = "canceled" →
        (cancelBooking st bid).result = .error (.conflict "Booking is already canceled") ∧
        (cancelBooking st bid).state = st ∧ (cancelBooking st bid).events = []) ∧
      (bk.booking_status = "active" →
        (cancelBooking st bid).result =
          .ok "Booking canceled and timeslot updated successfully" ∧
        (cancelBooking st bid).state.bookings = st.bookings.map (fun b =>
          if b.booking_id = bid then { b with booking_status := "canceled" } else b) ∧
        (cancelBooking st bid).state.timeslots = st.timeslots.map (fun t =>
          if t.timeslot_id = bk.timeslot_id then { t with is_booked := false } else t) ∧
        (cancelBooking (cancelBooking st bid).state bid).result =
          .error (.conflict "Booking is already canceled") ∧
        (cancelBooking (cancelBooking st bid).state bid).state =
          (cancelBooking st bid).state)) := by
  constructor
  · intro hnone
    have hfind : st.bookings.find? (fun b => decide (b.booking_id = bid)) = none := by
      simp only [List.find?_eq_none, decide_eq_true_eq]
      exact hnone
    unfold cancelBooking
    rw [hfind]
    exact ⟨by trivial, by trivial, by trivial⟩
  · intro bk hfind
    constructor
    · intro hc
      unfold cancelBooking
      rw [hfind]
      simp only [hc, if_true]
      exact ⟨by trivial, by trivial, by trivial⟩
    · intro ha
      have hnc : ¬ (bk.booking_status = "canceled") := by
        rw [ha]; decide
      have hstate : (cancelBooking st bid).state =
          ⟨st.timeslots.map (fun t =>
            if t.timeslot_id = bk.timeslot_id then { t with is_booked := false } else t),
           st.bookings.map (fun b =>
            if b.booking_id = bid then { b with booking_status := "canceled" } else b)⟩ := by
        unfold cancelBooking
        rw [hfind]
        simp only [hnc, if_false]
      have hres : (cancelBooking st bid).result =
          .ok "Booking canceled and timeslot updated successfully" := by
        unfold cancelBooking
        rw [hfind]
        simp only [hnc, if_false]
      have hfind2 : (cancelBooking st bid).state.bookings.find?
          (fun b => decide (b.booking_id = bid)) =
          some { bk with booking_status := "canceled" } := by
        rw [hstate]
        exact find?_map_cancel st.bookings bid bk hfind
      have hsecond : ∀ s2 : DBState,
          s2.bookings.find? (fun b => decide (b.booking_id = bid)) =
            some { bk with booking_status := "canceled" } →
          (cancelBooking s2 bid).result = .error (.conflict "Booking is already canceled") ∧
          (cancelBooking s2 bid).state = s2 := by
        intro s2 h2
        unfold cancelBooking
        rw [h2]
        simp
      refine ⟨hres, ?_, ?_, (hsecond _ hfind2).1, (hsecond _ hfind2).2⟩
      · rw [hstate]
      · rw [hstate]

/-- Witness for C4: cancelling the active seed booking2 succeeds, and
cancelling it a second time yields Conflict. -/
theorem cancelBooking_spec_witness :
    (cancelBooking initDB "booking2").result =
      .ok "Booking canceled and timeslot updated successfully" ∧
    (cancelBooking (cancelBooking initDB "booking2").state "booking2").result =
      .error (.conflict "Booking is already canceled") := by
  have h := ((cancelBooking_spec initDB "booking2").2
    ⟨"booking2", "ts3", "Bob Smith", "bob.smith@gmail.com", none,
     some "Follow up consultation", "active", "2023-10-15 09:55:00"⟩ (by decide)).2 (by decide)
  exact ⟨h.1, h.2.2.2.1⟩

/-! ### C8: admin slot edit -/

/-- C8: with at least one time field supplied (in the JS-truthy sense),
editing an unknown slot id fails with NotFound; an unsupplied field
retains the slot's current value before the overlap check; the check
runs against every other slot on the slot's date — booked or not —
excluding only the edited slot by id, failing with Conflict exactly when
one overlaps the prospective interval, and otherwise the new times are
persisted. -/
theorem updateTimeslot_spec (st : DBState) (tid : String) (stN etN : Option String)
    (hsup : jsTruthy stN = true ∨ jsTruthy etN = true) :
    ((∀ t ∈ st.timeslots, t.timeslot_id ≠ tid) →
      (updateTimeslot st tid stN etN).result = .error (.notFound "Timeslot not found") ∧
      (updateTimeslot st tid stN etN).state = st) ∧
    (∀ cur, st.timeslots.find? (fun t => decide (t.timeslot_id = tid)) = some cur →
      (jsTruthy stN = false → jsOr stN cur.start_time = cur.start_time) ∧
      (jsTruthy etN = false → jsOr etN cur.end_time = cur.end_time) ∧
      ((∃ t ∈ st.timeslots, t.slot_date = cur.slot_date ∧ t.timeslot_id ≠ tid ∧
          overlapB t.start_time t.end_time
            (jsOr stN cur.start_time) (jsOr etN cur.end_time) = true) →
        (updateTimeslot st tid stN etN).result =
          .error (.conflict "Overlapping timeslot exists") ∧
        (updateTimeslot st tid stN etN).state = st) ∧
      ((¬ ∃ t ∈ st.timeslots, t.slot_date = cur.slot_date ∧ t.timeslot_id ≠ tid ∧
          overlapB t.start_time t.end_time
            (jsOr stN cur.start_time) (jsOr etN cur.end_time) = true) →
        (updateTimeslot st tid stN etN).result = .ok "Timeslot updated successfully" ∧
        (updateTimeslot st tid stN etN).state.timeslots = st.timeslots.map (fun t =>
          if t.timeslot_id = tid then
            { t with start_time := jsOr stN cur.start_time,
                     end_time := jsOr etN cur.end_time }
          else t) ∧
        (updateTimeslot st tid stN etN).state.bookings = st.bookings)) := by
  have hcond : ¬ (¬ jsTruthy stN = true ∧ ¬ jsTruthy etN = true) := by
    rcases hsup with h | h
    · exact fun hc => hc.1 h
    · exact fun hc => hc.2 h
  unfold updateTimeslot
  rw [if_neg hcond]
  constructor
  · intro hnone
    have hfind : st.timeslots.find? (fun t => decide (t.timeslot_id = tid)) = none := by
      simp only [List.find?_eq_none, decide_eq_true_eq]
      exact hnone
    rw [hfind]
    exact ⟨by trivial, by trivial⟩
  · intro cur hfind
    rw [hfind]
    refine ⟨?_, ?_, ?_, ?_⟩
    · intro h0
      cases stN with
      | none => rfl
      | some s =>
        simp only [jsTruthy, decide_eq_false_iff_not, not_not] at h0
        simp [jsOr, h0]
    · intro h0
      cases etN with
      | none => rfl
      | some s =>
        simp only [jsTruthy, decide_eq_false_iff_not, not_not] at h0
        simp [jsOr, h0]
    · intro hov
      rcases hov with ⟨t, ht, h1, h2, h3⟩
      have hov' : ∃ x ∈ st.timeslots, (x.slot_date = cur.slot_date ∧ ¬x.timeslot_id = tid) ∧
          overlapB x.start_time x.end_time
            (jsOr stN cur.start_time) (jsOr etN cur.end_time) = true :=
        ⟨t, ht, ⟨h1, h2⟩, h3⟩
      simp [hov']
    · intro hno
      have hno' : ¬ ∃ x ∈ st.timeslots, (x.slot_date = cur.slot_date ∧ ¬x.timeslot_id = tid) ∧
          overlapB x.start_time x.end_time
            (jsOr stN cur.start_time) (jsOr etN cur.end_time) = true := by
        intro hc
        rcases hc with ⟨t, ht, ⟨h1, h2⟩, h3⟩
        exact hno ⟨t, ht, h1, h2, h3⟩
      simp [hno']

/-- Witness for C8: moving the free seed slot ts2 to 09:35-10:00 (only
start_time supplied) passes the overlap check and succeeds. -/
theorem updateTimeslot_spec_witness :
    (updateTimeslot initDB "ts2" (some "09:35") none).result =
      .ok "Timeslot updated successfully" := by
  have h := ((updateTimeslot_spec initDB "ts2" (some "09:35") none
      (Or.inl (by decide))).2
    ⟨"ts2", "2023-10-15", "09:30", "10:00", false⟩ (by decide)).2.2.2
  exact (h (by decide)).1

/-! ### C10: no empty/inverted-interval validation -/

/-- C10: neither slot creation nor slot editing rejects an empty or
inverted interval: with non-empty fields and `start_time ≥ end_time` no
InvalidInput error arises, and the slot is created (resp. the edit
persisted) whenever no existing slot on the date satisfies
`existing.start < new_end AND existing.end > new_start`. -/
theorem no_empty_interval_validation (st : DBState) (d s e nid tid : String)
    (hd : d ≠ "") (hs : s ≠ "") (he : e ≠ "") (hinv : strLe e s = true) :
    (isInvalidInput (createTimeslot st d s e nid).result = false ∧
      ((∀ t ∈ st.timeslots, ¬ (t.slot_date = d ∧ overlapB t.start_time t.end_time s e = true)) →
        (createTimeslot st d s e nid).result = .ok nid ∧
        (createTimeslot st d s e nid).state.timeslots =
          st.timeslots ++ [⟨nid, d, s, e, false⟩])) ∧
    (isInvalidInput (updateTimeslot st tid (some s) (some e)).result = false ∧
      (∀ cur, st.timeslots.find? (fun t => decide (t.timeslot_id = tid)) = some cur →
        (∀ t ∈ st.timeslots, ¬ (t.slot_date = cur.slot_date ∧ t.timeslot_id ≠ tid ∧
            overlapB t.start_time t.end_time s e = true)) →
        (updateTimeslot st tid (some s) (some e)).result =
          .ok "Timeslot updated successfully")) := by
  have hcond : ¬ (¬ jsTruthy (some s) = true ∧ ¬ jsTruthy (some e) = true) := by
    intro hc
    exact hc.1 (by simp [jsTruthy, hs])
  have hsOr : ∀ d0 : String, jsOr (some s) d0 = s := fun d0 => by simp [jsOr, hs]
  have heOr : ∀ d0 : String, jsOr (some e) d0 = e := fun d0 => by simp [jsOr, he]
  refine ⟨⟨?_, ?_⟩, ?_, ?_⟩
  · unfold createTimeslot
    simp only [hd, hs, he, or_self, if_false, false_or]
    by_cases hc : st.timeslots.any
        (fun t => decide (t.slot_date = d) && overlapB t.start_time t.end_time s e) = true
    · rw [if_pos hc]; rfl
    · rw [if_neg hc]; rfl
  · intro hno
    unfold createTimeslot
    simp only [hd, hs, he, or_self, if_false, false_or]
    have hany : st.timeslots.any
        (fun t => decide (t.slot_date = d) && overlapB t.start_time t.end_time s e) = false := by
      rw [List.any_eq_false]
      intro t ht
      simp only [Bool.and_eq_true, decide_eq_true_eq, not_and]
      intro h1 h2
      exact hno t ht ⟨h1, h2⟩
    simp [hany]
  · unfold updateTimeslot
    rw [if_neg hcond]
    split
    · rfl
    · dsimp only
      split
      · rfl
      · rfl
  · intro cur hfind hno
    unfold updateTimeslot
    rw [if_neg hcond, hfind]
    have hno' : ¬ ∃ x ∈ st.timeslots, (x.slot_date = cur.slot_date ∧ ¬x.timeslot_id = tid) ∧
        overlapB x.start_time x.end_time (jsOr (some s) cur.start_time)
          (jsOr (some e) cur.end_time) = true := by
      intro hc
      rcases hc with ⟨t, ht, ⟨h1, h2⟩, h3⟩
      rw [hsOr, heOr] at h3
      exact hno t ht ⟨h1, h2, h3⟩
    simp [hno']

/-- Witness for C10: creating an inverted slot 10:00-09:00 on an empty
date raises no InvalidInput and succeeds. -/
theorem no_empty_interval_validation_witness :
    (createTimeslot initDB "2023-10-20" "10:00" "09:00" "n2").result = .ok "n2" := by
  have h := (no_empty_interval_validation initDB "2023-10-20" "10:00" "09:00" "n2" "ts1"
    (by decide) (by decide) (by decide) (by decide)).1.2
  exact (h (by decide)).1

/-! ### C7: event emission relative to commit -/

/-- C7 counterexample: cancelling the active seed booking1 commits
successfully, yet the handler emits the booking-update event first and
the slot-update event second — not slot-update before booking-update as
claimed. -/
theorem cancel_event_order_counterexample :
    (cancelBooking initDB "booking1").result =
      .ok "Booking canceled and timeslot updated successfully" ∧
    (cancelBooking initDB "booking1").events =
      [Event.bookingUpdate "booking1" "ts1" "canceled",
       Event.timeslotUpdate ⟨"ts1", "2023-10-15", "09:00", "09:30", false⟩] := by
  exact ⟨by decide, by decide⟩

/-- C7 (amended): for both the booking and the cancellation handler no
event is emitted on any failure (rollback), and the events of one
committed transaction follow its write order: CreateBooking emits the
slot-update then the booking-update, while CancelBooking emits the
booking-update first and then the slot-update snapshot (when the
re-queried slot row exists). -/
theorem events_after_commit (st : DBState) (tid name email nid cat bid : String)
    (phone notes : Option String) :
    (∀ err, (createBooking st tid name email phone notes nid cat).result = .error err →
      (createBooking st tid name email phone notes nid cat).events = []) ∧
    (∀ out, (createBooking st tid name email phone notes nid cat).result = .ok out →
      ∃ ts, (createBooking st tid name email phone notes nid cat).events =
        [Event.timeslotUpdate ts, Event.bookingUpdate nid tid "active"]) ∧
    (∀ err, (cancelBooking st bid).result = .error err →
      (cancelBooking st bid).events = []) ∧
    (∀ out, (cancelBooking st bid).result = .ok out →
      ∃ btid rest, (cancelBooking st bid).events =
          Event.bookingUpdate bid btid "canceled" :: rest ∧
        ∀ ev ∈ rest, ∃ t, ev = Event.timeslotUpdate t) := by
  have hcb : (∃ err, (createBooking st tid name email phone notes nid cat).result = .error err ∧
        (createBooking st tid name email phone notes nid cat).events = []) ∨
      ((∃ out, (createBooking st tid name email phone notes nid cat).result = .ok out) ∧
        ∃ ts, (createBooking st tid name email phone notes nid cat).events =
          [Event.timeslotUpdate ts, Event.bookingUpdate nid tid "active"]) := by
    unfold createBooking
    split
    · exact Or.inl ⟨_, rfl, rfl⟩
    · split
      · exact Or.inl ⟨_, rfl, rfl⟩
      · split
        · exact Or.inl ⟨_, rfl, rfl⟩
        · exact Or.inr ⟨⟨_, rfl⟩, _, rfl⟩
  have hcc : (∃ err, (cancelBooking st bid).result = .error err ∧
        (cancelBooking st bid).events = []) ∨
      ((∃ out, (cancelBooking st bid).result = .ok out) ∧
        ∃ btid rest, (cancelBooking st bid).events =
            Event.bookingUpdate bid btid "canceled" :: rest ∧
          ∀ ev ∈ rest, ∃ t, ev = Event.timeslotUpdate t) := by
    unfold cancelBooking
    split
    · exact Or.inl ⟨_, rfl, rfl⟩
    · split
      · exact Or.inl ⟨_, rfl, rfl⟩
      · refine Or.inr ⟨⟨_, rfl⟩, _, _, rfl, ?_⟩
        dsimp only
        split
        · intro ev hev
          simp only [List.mem_singleton] at hev
          exact ⟨_, hev⟩
        · intro ev hev
          simp at hev
  refine ⟨?_, ?_, ?_, ?_⟩
  · intro err herr
    rcases hcb with ⟨e, he, hev⟩ | ⟨⟨out, hok⟩, _⟩
    · exact hev
    · rw [hok] at herr; exact absurd herr (by simp)
  · intro out hok
    rcases hcb with ⟨e, he, hev⟩ | ⟨_, hts⟩
    · rw [he] at hok; exact absurd hok (by simp)
    · exact hts
  · intro err herr
    rcases hcc with ⟨e, he, hev⟩ | ⟨⟨out, hok⟩, _⟩
    · exact hev
    · rw [hok] at herr; exact absurd herr (by simp)
  · intro out hok
    rcases hcc with ⟨e, he, hev⟩ | ⟨_, hts⟩
    · rw [he] at hok; exact absurd hok (by simp)
    · exact hts

/-- Witness for the amended C7: booking an unknown slot id rolls back
and emits nothing. -/
theorem events_after_commit_witness :
    (createBooking initDB "ts9" "Jane Doe" "jane@x.com" none none "b7" "t").events = [] :=
  (events_after_commit initDB "ts9" "Jane Doe" "jane@x.com" "b7" "t" "booking1"
    none none).1 (.notFound "Invalid timeslot_id") (by decide)

/-! ### C5: slot deletion against the schema's foreign key -/

/-- C5 at the seed data: deleting ts3 while booking2 is active yields
Conflict, and the handler's own guard would then allow the delete after
booking2 is canceled (the `deleteTimeslot` conjunct); but executed
against the db.sql schema the DELETE is rejected by the `fk_timeslot`
foreign key, because the canceled booking2 row still references ts3 and
bookings are never deleted — the request fails as a storage failure
instead of succeeding, contradicting the claim. -/
theorem delete_after_cancel_fk_failure :
    (deleteTimeslotFK initDB "ts3").result =
      .error (.conflict "Cannot delete timeslot with active booking") ∧
    (cancelBooking initDB "booking2").result =
      .ok "Booking canceled and timeslot updated successfully" ∧
    (deleteTimeslot (cancelBooking initDB "booking2").state "ts3").result =
      .ok "Timeslot deleted successfully" ∧
    (deleteTimeslotFK (cancelBooking initDB "booking2").state "ts3").result =
      .error (.storageFailure "foreign key constraint fk_timeslot violated") ∧
    (deleteTimeslotFK (cancelBooking initDB "booking2").state "ts3").state =
      (cancelBooking initDB "booking2").state := by
  exact ⟨by decide, by decide, by decide, by decide, by decide⟩

/-! ### C9: monthly calendar aggregate -/

theorem mem_insertSorted (d a : String) (l : List String) :
    a ∈ insertSorted d l ↔ a = d ∨ a ∈ l := by
  induction l with
  | nil => simp [insertSorted]
  | cons x xs ih =>
    by_cases h : strLe d x = true
    · simp [insertSorted, h]
    · simp only [insertSorted]
      rw [if_neg h]
      simp only [List.mem_cons, ih]
      tauto

theorem nodup_insertSorted (d : String) (l : List String) (hd : d ∉ l) (hl : l.Nodup) :
    (insertSorted d l).Nodup := by
  induction l with
  | nil => simp [insertSorted]
  | cons x xs ih =>
    by_cases h : strLe d x = true
    · simp only [insertSorted, if_pos h]
      exact List.nodup_cons.mpr ⟨hd, hl⟩
    · simp only [insertSorted, if_neg h]
      rcases List.nodup_cons.mp hl with ⟨hx, hxs⟩
      have hd' : d ∉ xs := fun hc => hd (List.mem_cons_of_mem _ hc)
      refine List.nodup_cons.mpr ⟨?_, ih hd' hxs⟩
      intro hc
      rcases (mem_insertSorted d x xs).mp hc with h1 | h1
      · exact hd (by rw [h1]; exact List.mem_cons_self d xs)
      · exact hx h1

theorem pairwise_insertSorted (d : String) (l : List String)
    (h : l.Pairwise (fun a b => strLe a b = true)) :
    (insertSorted d l).Pairwise (fun a b => strLe a b = true) := by
  induction l with
  | nil => simp [insertSorted]
  | cons x xs ih =>
    rcases List.pairwise_cons.mp h with ⟨hx, hxs⟩
    by_cases hdx : strLe d x = true
    · simp only [insertSorted, if_pos hdx]
      refine List.pairwise_cons.mpr ⟨?_, h⟩
      intro b hb
      rcases List.mem_cons.mp hb with h1 | h1
      · rw [h1]; exact hdx
      · exact strLe_trans hdx (hx b h1)
    · simp only [insertSorted, if_neg hdx]
      refine List.pairwise_cons.mpr ⟨?_, ih hxs⟩
      intro b hb
      rcases (mem_insertSorted d b xs).mp hb with h1 | h1
      · rw [h1]; exact strLe_of_not_strLe hdx
      · exact hx b h1

theorem mem_sortDates (a : String) (l : List String) : a ∈ sortDates l ↔ a ∈ l := by
  induction l with
  | nil => simp [sortDates]
  | cons x xs ih => simp [sortDates, mem_insertSorted, ih]

theorem nodup_sortDates (l : List String) (h : l.Nodup) : (sortDates l).Nodup := by
  induction l with
  | nil => simp [sortDates]
  | cons x xs ih =>
    rcases List.nodup_cons.mp h with ⟨hx, hxs⟩
    exact nodup_insertSorted x (sortDates xs)
      (fun hc => hx ((mem_sortDates x xs).mp hc)) (ih hxs)

theorem pairwise_sortDates (l : List String) :
    (sortDates l).Pairwise (fun a b => strLe a b = true) := by
  induction l with
  | nil => simp [sortDates]
  | cons x xs ih => exact pairwise_insertSorted x (sortDates xs) ih

/-- The dates of the aggregate are exactly the sorted deduplicated dates
of the month's slots. -/
theorem getCalendar_map_slotdate (st : DBState) (y m : String) :
    (getCalendar st y m).map (·.slot_date) =
      sortDates (((st.timeslots.filter fun t =>
        strStartsWith (monthStem y m) t.slot_date).map (·.slot_date)).dedup) := by
  unfold getCalendar
  rw [List.map_map]
  exact List.map_id'' (fun a => rfl) _

/-- C9: the monthly aggregate has one entry per distinct date of the
month that has at least one slot (dates with zero slots are absent),
carrying that date's total and booked slot counts with
`available = total - booked > 0`, and the entries are ordered by date
ascending. -/
theorem calendar_aggregate_spec (st : DBState) (year month : String) :
    (∀ dt, dt ∈ (getCalendar st year month).map (·.slot_date) ↔
      ∃ t ∈ st.timeslots, strStartsWith (monthStem year month) t.slot_date = true ∧
        t.slot_date = dt) ∧
    ((getCalendar st year month).map (·.slot_date)).Nodup ∧
    ((getCalendar st year month).map (·.slot_date)).Pairwise (fun a b => strLe a b = true) ∧
    (∀ e ∈ getCalendar st year month,
      0 < e.total_slots ∧
      e.total_slots =
        (st.timeslots.filter (fun t => decide (t.slot_date = e.slot_date))).length ∧
      e.booked_slots =
        ((st.timeslots.filter (fun t => decide (t.slot_date = e.slot_date))).filter
          (·.is_booked)).length ∧
      e.available = decide (e.total_slots - e.booked_slots > 0)) := by
  have hmap := getCalendar_map_slotdate st year month
  refine ⟨?_, ?_, ?_, ?_⟩
  · intro dt
    rw [hmap, mem_sortDates, List.mem_dedup, List.mem_map]
    constructor
    · rintro ⟨t, ht, rfl⟩
      rcases List.mem_filter.mp ht with ⟨ht0, hstem⟩
      exact ⟨t, ht0, hstem, rfl⟩
    · rintro ⟨t, ht0, hstem, rfl⟩
      exact ⟨t, List.mem_filter.mpr ⟨ht0, hstem⟩, rfl⟩
  · rw [hmap]
    exact nodup_sortDates _ (List.nodup_dedup _)
  · rw [hmap]
    exact pairwise_sortDates _
  · intro e he
    unfold getCalendar at he
    rw [List.mem_map] at he
    rcases he with ⟨d, hd, he⟩
    have hd' : d ∈ ((st.timeslots.filter fun t =>
        strStartsWith (monthStem year month) t.slot_date).map (·.slot_date)).dedup :=
      (mem_sortDates _ _).mp hd
    rw [List.mem_dedup, List.mem_map] at hd'
    rcases hd' with ⟨t0, ht0, ht0d⟩
    rcases List.mem_filter.mp ht0 with ⟨ht0mem, ht0stem⟩
    have hstem : strStartsWith (monthStem year month) d = true := ht0d ▸ ht0stem
    have hfilter : (st.timeslots.filter fun t =>
        strStartsWith (monthStem year month) t.slot_date).filter
          (fun t => decide (t.slot_date = d)) =
        st.timeslots.filter (fun t => decide (t.slot_date = d)) := by
      rw [List.filter_filter]
      apply List.filter_congr
      intro t _
      by_cases hdt : t.slot_date = d
      · simp [hdt, hstem]
      · simp [hdt]
    subst he
    dsimp only
    rw [hfilter]
    refine ⟨?_, rfl, rfl, rfl⟩
    exact List.length_pos_of_mem
      (List.mem_filter.mpr ⟨ht0mem, by simp [ht0d]⟩)

/-- Witness for C9: the aggregate for October 2023 over the seed data
contains the date 2023-10-15. -/
theorem calendar_aggregate_spec_witness :
    "2023-10-15" ∈ (getCalendar initDB "2023" "10").map (·.slot_date) :=
  ((calendar_aggregate_spec initDB "2023" "10").1 "2023-10-15").mpr
    ⟨⟨"ts1", "2023-10-15", "09:00", "09:30", true⟩, by decide, by decide, rfl⟩

/-! ### C6: serialized concurrent booking attempts -/

/-- Booking rewrites exactly the rows whose `timeslot_id` matches, so
the booked row is what a later `find?` by the same id retrieves. -/
theorem find?_map_book (l : List Timeslot) (tid : String) (ts : Timeslot)
    (h : l.find? (fun t => decide (t.timeslot_id = tid)) = some ts) :
    (l.map fun t => if t.timeslot_id = tid then { t with is_booked := true } else t).find?
      (fun t => decide (t.timeslot_id = tid)) = some { ts with is_booked := true } := by
  rw [List.find?_map]
  have hcomp : ((fun t => decide (t.timeslot_id = tid)) ∘
      (fun t => if t.timeslot_id = tid then { t with is_booked := true } else t)) =
      (fun t : Timeslot => decide (t.timeslot_id = tid)) := by
    funext t
    by_cases ht : t.timeslot_id = tid <;> simp [ht]
  rw [hcomp, h]
  have htid' : ts.timeslot_id = tid := by simpa using List.find?_some h
  simp [htid']

/-- Once the target slot is booked, every further attempt in the
serialization receives the already-booked Conflict and leaves the state
untouched. -/
theorem runAttempts_booked (tid : String) (ts2 : Timeslot) (s2 : DBState)
    (hbk : ts2.is_booked = true) (htid : tid ≠ "")
    (hfind2 : s2.timeslots.find? (fun t => decide (t.timeslot_id = tid)) = some ts2) :
    ∀ as : List Attempt, (∀ x ∈ as, x.full_name ≠ "" ∧ x.email ≠ "") →
    runAttempts s2 tid as =
      (s2, as.map fun _ => .error (.conflict "Timeslot already booked")) := by
  intro as
  induction as with
  | nil => intro _; rfl
  | cons x xs ih =>
    intro hwf
    have hx : createBooking s2 tid x.full_name x.email x.phone x.notes
        x.booking_id x.created_at =
        ⟨.error (.conflict "Timeslot already booked"), s2, []⟩ := by
      unfold createBooking
      rw [if_neg (by simp [htid, (hwf x (List.mem_cons_self x xs)).1,
        (hwf x (List.mem_cons_self x xs)).2]), hfind2]
      dsimp only
      rw [if_pos hbk]
    simp only [runAttempts]
    rw [hx]
    dsimp only
    rw [ih (fun y hy => hwf y (List.mem_cons_of_mem x hy))]
    rfl

/-- C6: under the serialization imposed by the `FOR UPDATE` row lock,
any nonempty sequence of well-formed booking attempts for the same
initially-free slot has exactly one success — the first in the
serialization order — while every other attempt receives the
already-booked Conflict, and afterwards the slot is booked with exactly
one active booking referencing it. -/
theorem concurrent_booking_spec (st : DBState) (tid : String) (ts : Timeslot)
    (a : Attempt) (rest : List Attempt)
    (hfind : st.timeslots.find? (fun t => decide (t.timeslot_id = tid)) = some ts)
    (hfree : ts.is_booked = false)
    (hnoact : ∀ b ∈ st.bookings, ¬ (b.timeslot_id = tid ∧ b.booking_status = "active"))
    (htid : tid ≠ "")
    (hwf : ∀ x ∈ a :: rest, x.full_name ≠ "" ∧ x.email ≠ "") :
    (runAttempts st tid (a :: rest)).2 =
      (.ok ⟨a.booking_id,
        ⟨tid, a.full_name, a.email, ts.slot_date, ts.start_time, ts.end_time⟩⟩)
        :: rest.map (fun _ => .error (.conflict "Timeslot already booked")) ∧
    (∀ t ∈ (runAttempts st tid (a :: rest)).1.timeslots,
      t.timeslot_id = tid → t.is_booked = true) ∧
    activeCount (runAttempts st tid (a :: rest)).1 tid = 1 := by
  have hna : a.full_name ≠ "" := (hwf a (List.mem_cons_self a rest)).1
  have hea : a.email ≠ "" := (hwf a (List.mem_cons_self a rest)).2
  have h1 : createBooking st tid a.full_name a.email a.phone a.notes
      a.booking_id a.created_at =
      ⟨.ok ⟨a.booking_id,
        ⟨tid, a.full_name, a.email, ts.slot_date, ts.start_time, ts.end_time⟩⟩,
       ⟨st.timeslots.map (fun t =>
          if t.timeslot_id = tid then { t with is_booked := true } else t),
        st.bookings ++ [⟨a.booking_id, tid, a.full_name, a.email, orNull a.phone,
          orNull a.notes, "active", a.created_at⟩]⟩,
       [Event.timeslotUpdate
          ⟨ts.timeslot_id, ts.slot_date, ts.start_time, ts.end_time, true⟩,
        Event.bookingUpdate a.booking_id tid "active"]⟩ := by
    unfold createBooking
    rw [if_neg (by simp [htid, hna, hea]), hfind]
    dsimp only
    rw [if_neg (by simp [hfree])]
  have hrun : runAttempts st tid (a :: rest) =
      (⟨st.timeslots.map (fun t =>
          if t.timeslot_id = tid then { t with is_booked := true } else t),
        st.bookings ++ [⟨a.booking_id, tid, a.full_name, a.email, orNull a.phone,
          orNull a.notes, "active", a.created_at⟩]⟩,
       (.ok ⟨a.booking_id,
          ⟨tid, a.full_name, a.email, ts.slot_date, ts.start_time, ts.end_time⟩⟩)
         :: rest.map (fun _ => .error (.conflict "Timeslot already booked"))) := by
    simp only [runAttempts]
    rw [h1]
    dsimp only
    rw [runAttempts_booked tid { ts with is_booked := true } _ rfl htid
      (find?_map_book st.timeslots tid ts hfind) rest
      (fun y hy => hwf y (List.mem_cons_of_mem a hy))]
  rw [hrun]
  refine ⟨rfl, ?_, ?_⟩
  · intro t ht htid'
    dsimp only at ht
    rw [List.mem_map] at ht
    rcases ht with ⟨t0, _, ht0⟩
    by_cases h0 : t0.timeslot_id = tid
    · rw [← ht0]; simp [h0]
    · rw [← ht0] at htid'
      simp [h0] at htid'
  · unfold activeCount
    dsimp only
    rw [List.filter_append]
    have h0 : st.bookings.filter (fun b =>
        decide (b.timeslot_id = tid) && decide (b.booking_status = "active")) = [] := by
      rw [List.filter_eq_nil_iff]
      intro b hb
      simp only [Bool.and_eq_true, decide_eq_true_eq, not_and]
      intro hb1 hb2
      exact hnoact b hb ⟨hb1, hb2⟩
    rw [h0]
    simp

/-- Witness for C6: two attempts on the free seed slot ts2 — the first
succeeds, the second receives Conflict. -/
theorem concurrent_booking_spec_witness :
    (runAttempts initDB "ts2" [⟨"Jane Doe", "jane@x.com", none, none, "b1x", "t1"⟩,
      ⟨"John Roe", "john@x.com", none, none, "b2x", "t2"⟩]).2 =
      [.ok ⟨"b1x", ⟨"ts2", "Jane Doe", "jane@x.com", "2023-10-15", "09:30", "10:00"⟩⟩,
       .error (.conflict "Timeslot already booked")] :=
  (concurrent_booking_spec initDB "ts2" ⟨"ts2", "2023-10-15", "09:30", "10:00", false⟩
    ⟨"Jane Doe", "jane@x.com", none, none, "b1x", "t1"⟩
    [⟨"John Roe", "john@x.com", none, none, "b2x", "t2"⟩]
    (by decide) (by decide) (by decide) (by decide) (by decide)).1

/-! ### C1: the system-wide booked-iff-active invariant -/

/-- Mapping with a function that preserves a field leaves the list of
that field unchanged. -/
theorem map_field_eq {α β : Type} (l : List α) (f : α → α) (g : α → β)
    (h : ∀ a, g (f a) = g a) : (l.map f).map g = l.map g := by
  rw [List.map_map]
  exact List.map_congr_left fun a _ => h a

theorem strongInv_createBooking (s : DBState) (tid name email nid cat : String)
    (phone notes : Option String) (hinv : StrongInv s)
    (hfresh : ∀ b ∈ s.bookings, b.booking_id ≠ nid) :
    StrongInv (createBooking s tid name email phone notes nid cat).state := by
  obtain ⟨hnodT, hnodB, hstat, hbia, huniq⟩ := hinv
  unfold createBooking
  split
  · exact ⟨hnodT, hnodB, hstat, hbia, huniq⟩
  · split
    · exact ⟨hnodT, hnodB, hstat, hbia, huniq⟩
    · rename_i ts hts
      split
      · exact ⟨hnodT, hnodB, hstat, hbia, huniq⟩
      · rename_i hbooked
        have hmem : ts ∈ s.timeslots := List.mem_of_find?_eq_some hts
        have htsid : ts.timeslot_id = tid := by simpa using List.find?_some hts
        have hfree : ts.is_booked = false := by
          cases hb : ts.is_booked with
          | false => rfl
          | true => exact absurd hb hbooked
        have hnoactive : ∀ b ∈ s.bookings,
            ¬ (b.timeslot_id = tid ∧ b.booking_status = "active") := by
          intro b hb hc
          have hbk : ts.is_booked = true :=
            (hbia ts hmem).mpr ⟨b, hb, hc.1.trans htsid.symm, hc.2⟩
          rw [hfree] at hbk
          exact Bool.false_ne_true hbk
        dsimp only
        refine ⟨?_, ?_, ?_, ?_, ?_⟩
        · rw [map_field_eq _ _ _ (fun t => by by_cases h0 : t.timeslot_id = tid <;> simp [h0])]
          exact hnodT
        · rw [List.map_append]
          rw [List.nodup_append]
          refine ⟨hnodB, List.nodup_singleton _, ?_⟩
          intro x hx hx2
          rw [List.mem_map] at hx
          rcases hx with ⟨b, hb, hbx⟩
          simp only [List.map_cons, List.map_nil, List.mem_singleton] at hx2
          exact hfresh b hb (hbx.trans hx2)
        · intro b hb
          rcases List.mem_append.mp hb with hb' | hb'
          · exact hstat b hb'
          · rw [List.mem_singleton] at hb'
            subst hb'
            exact Or.inl rfl
        · intro t' ht'
          rw [List.mem_map] at ht'
          rcases ht' with ⟨t0, ht0, rfl⟩
          by_cases h0 : t0.timeslot_id = tid
          · simp only [h0, if_true]
            constructor
            · intro _
              refine ⟨⟨nid, tid, name, email, orNull phone, orNull notes, "active", cat⟩,
                List.mem_append_right _ (List.mem_singleton_self _), ?_, rfl⟩
              simpa using h0.symm
            · intro _
              trivial
          · simp only [h0, if_false]
            rw [hbia t0 ht0]
            constructor
            · rintro ⟨b, hb, hb1, hb2⟩
              exact ⟨b, List.mem_append_left _ hb, hb1, hb2⟩
            · rintro ⟨b, hb, hb1, hb2⟩
              rcases List.mem_append.mp hb with hb' | hb'
              · exact ⟨b, hb', hb1, hb2⟩
              · rw [List.mem_singleton] at hb'
                subst hb'
                exact absurd hb1.symm h0
        · intro b1 hb1 b2 hb2 ht12 ha1 ha2
          rcases List.mem_append.mp hb1 with hb1' | hb1' <;>
            rcases List.mem_append.mp hb2 with hb2' | hb2'
          · exact huniq b1 hb1' b2 hb2' ht12 ha1 ha2
          · rw [List.mem_singleton] at hb2'
            subst hb2'
            exact absurd ⟨ht12.trans rfl, ha1⟩ (hnoactive b1 hb1')
          · rw [List.mem_singleton] at hb1'
            subst hb1'
            exact absurd ⟨ht12.symm.trans rfl, ha2⟩ (hnoactive b2 hb2')
          · rw [List.mem_singleton] at hb1' hb2'
            rw [hb1', hb2']

theorem strongInv_createTimeslot (s : DBState) (d st_ et_ nid : String) (hinv : StrongInv s)
    (hfreshT : ∀ t ∈ s.timeslots, t.timeslot_id ≠ nid)
    (hfreshB : ∀ b ∈ s.bookings, b.timeslot_id ≠ nid) :
    StrongInv (createTimeslot s d st_ et_ nid).state := by
  obtain ⟨hnodT, hnodB, hstat, hbia, huniq⟩ := hinv
  unfold createTimeslot
  split
  · exact ⟨hnodT, hnodB, hstat, hbia, huniq⟩
  · split
    · exact ⟨hnodT, hnodB, hstat, hbia, huniq⟩
    · dsimp only
      refine ⟨?_, hnodB, hstat, ?_, huniq⟩
      · rw [List.map_append, List.nodup_append]
        refine ⟨hnodT, List.nodup_singleton _, ?_⟩
        intro x hx hx2
        rw [List.mem_map] at hx
        rcases hx with ⟨t, ht, htx⟩
        simp only [List.map_cons, List.map_nil, List.mem_singleton] at hx2
        exact hfreshT t ht (htx.trans hx2)
      · intro t' ht'
        rcases List.mem_append.mp ht' with ht'' | ht''
        · exact hbia t' ht''
        · rw [List.mem_singleton] at ht''
          subst ht''
          constructor
          · intro hc
            exact absurd hc (by simp)
          · rintro ⟨b, hb, hb1, _⟩
            exact absurd hb1 (hfreshB b hb)

theorem strongInv_updateTimeslot (s : DBState) (tid : String) (stN etN : Option String)
    (hinv : StrongInv s) : StrongInv (updateTimeslot s tid stN etN).state := by
  obtain ⟨hnodT, hnodB, hstat, hbia, huniq⟩ := hinv
  unfold updateTimeslot
  split
  · exact ⟨hnodT, hnodB, hstat, hbia, huniq⟩
  · split
    · exact ⟨hnodT, hnodB, hstat, hbia, huniq⟩
    · rename_i cur hcur
      dsimp only
      split
      · exact ⟨hnodT, hnodB, hstat, hbia, huniq⟩
      · dsimp only
        refine ⟨?_, hnodB, hstat, ?_, huniq⟩
        · rw [map_field_eq _ _ _
            (fun t => by by_cases h0 : t.timeslot_id = tid <;> simp [h0])]
          exact hnodT
        · intro t' ht'
          rw [List.mem_map] at ht'
          rcases ht' with ⟨t0, ht0, rfl⟩
          by_cases h0 : t0.timeslot_id = tid
          · simp only [h0, if_true]
            rw [← h0]
            exact hbia t0 ht0
          · simp only [h0, if_false]
            exact hbia t0 ht0

theorem strongInv_deleteTimeslot (s : DBState) (tid : String) (hinv : StrongInv s) :
    StrongInv (deleteTimeslot s tid).state := by
  obtain ⟨hnodT, hnodB, hstat, hbia, huniq⟩ := hinv
  unfold deleteTimeslot
  split
  · exact ⟨hnodT, hnodB, hstat, hbia, huniq⟩
  · dsimp only
    refine ⟨?_, hnodB, hstat, ?_, huniq⟩
    · exact List.Nodup.sublist (List.Sublist.map _ (List.filter_sublist _)) hnodT
    · intro t' ht'
      exact hbia t' (List.mem_of_mem_filter ht')

theorem strongInv_cancelBooking (s : DBState) (bid : String) (hinv : StrongInv s) :
    StrongInv (cancelBooking s bid).state := by
  obtain ⟨hnodT, hnodB, hstat, hbia, huniq⟩ := hinv
  unfold cancelBooking
  split
  · exact ⟨hnodT, hnodB, hstat, hbia, huniq⟩
  · rename_i bk hfind
    split
    · exact ⟨hnodT, hnodB, hstat, hbia, huniq⟩
    · rename_i hnc
      have hmem : bk ∈ s.bookings := List.mem_of_find?_eq_some hfind
      have hbid : bk.booking_id = bid := by simpa using List.find?_some hfind
      have hact : bk.booking_status = "active" := by
        rcases hstat bk hmem with h | h
        · exact h
        · exact absurd h hnc
      have hinj : ∀ b ∈ s.bookings, b.booking_id = bid → b = bk := by
        intro b hb hbbid
        exact List.inj_on_of_nodup_map hnodB hb hmem (by rw [hbbid, hbid])
      dsimp only
      refine ⟨?_, ?_, ?_, ?_, ?_⟩
      · rw [map_field_eq _ _ _
          (fun t => by by_cases h0 : t.timeslot_id = bk.timeslot_id <;> simp [h0])]
        exact hnodT
      · rw [map_field_eq _ _ _
          (fun b => by by_cases h0 : b.booking_id = bid <;> simp [h0])]
        exact hnodB
      · intro b' hb'
        rw [List.mem_map] at hb'
        rcases hb' with ⟨b0, hb0, rfl⟩
        by_cases h0 : b0.booking_id = bid
        · rw [if_pos h0]
          exact Or.inr rfl
        · rw [if_neg h0]
          exact hstat b0 hb0
      · intro t' ht'
        rw [List.mem_map] at ht'
        rcases ht' with ⟨t0, ht0, rfl⟩
        by_cases h0 : t0.timeslot_id = bk.timeslot_id
        · rw [if_pos h0]
          apply iff_of_false
          · simp
          · rintro ⟨b', hb', hbt, hba⟩
            rw [List.mem_map] at hb'
            rcases hb' with ⟨b0, hb0, rfl⟩
            by_cases hc : b0.booking_id = bid
            · rw [if_pos hc] at hba
              simp at hba
            · rw [if_neg hc] at hbt hba
              have hbt' : b0.timeslot_id = bk.timeslot_id := hbt.trans h0
              have hbb : b0 = bk := huniq b0 hb0 bk hmem hbt' hba hact
              exact hc (by rw [hbb, hbid])
        · rw [if_neg h0]
          rw [hbia t0 ht0]
          constructor
          · rintro ⟨b, hb, hb1, hb2⟩
            have hbne : b.booking_id ≠ bid := by
              intro hc
              have hbb : b = bk := hinj b hb hc
              rw [hbb] at hb1
              exact h0 hb1.symm
            refine ⟨b, ?_, hb1, hb2⟩
            rw [List.mem_map]
            exact ⟨b, hb, by rw [if_neg hbne]⟩
          · rintro ⟨b', hb', hb1, hb2⟩
            rw [List.mem_map] at hb'
            rcases hb' with ⟨b0, hb0, rfl⟩
            by_cases hc : b0.booking_id = bid
            · rw [if_pos hc] at hb2
              simp at hb2
            · rw [if_neg hc] at hb1 hb2
              exact ⟨b0, hb0, hb1, hb2⟩
      · intro b1' hb1' b2' hb2' ht12 ha1 ha2
        rw [List.mem_map] at hb1' hb2'
        rcases hb1' with ⟨b1, hb1, rfl⟩
        rcases hb2' with ⟨b2, hb2, rfl⟩
        by_cases hc1 : b1.booking_id = bid
        · rw [if_pos hc1] at ha1
          simp at ha1
        · by_cases hc2 : b2.booking_id = bid
          · rw [if_pos hc2] at ha2
            simp at ha2
          · rw [if_neg hc1] at ha1 ht12 ⊢
            rw [if_neg hc2] at ha2 ht12 ⊢
            exact huniq b1 hb1 b2 hb2 ht12 ha1 ha2

/-- C1: every backend operation — booking, cancellation, slot
create/edit/delete, whether it commits changes or rolls back — preserves
the database invariant, in particular the biconditional that a slot's
booked flag is set iff an active booking references it; consequently the
biconditional holds in every state reachable from the seed database at
each commit boundary. -/
theorem booked_iff_active_invariant :
    (∀ s s' : DBState, StrongInv s → Step s s' → StrongInv s' ∧ BookedIffActive s') ∧
    (∀ s : DBState, Reachable s → StrongInv s ∧ BookedIffActive s) := by
  have hstep : ∀ s s' : DBState, StrongInv s → Step s s' → StrongInv s' := by
    intro s s' hinv hst
    cases hst with
    | book tid name email phone notes nid cat hfresh =>
      exact strongInv_createBooking s tid name email nid cat phone notes hinv hfresh
    | cancel bid => exact strongInv_cancelBooking s bid hinv
    | slotCreate d st_ et_ nid hfreshT hfreshB =>
      exact strongInv_createTimeslot s d st_ et_ nid hinv hfreshT hfreshB
    | slotEdit tid st_ et_ => exact strongInv_updateTimeslot s tid st_ et_ hinv
    | slotDelete tid => exact strongInv_deleteTimeslot s tid hinv
  have hbia : ∀ s : DBState, StrongInv s → BookedIffActive s := fun s hs => hs.2.2.2.1
  refine ⟨fun s s' hinv h => ⟨hstep s s' hinv h, hbia _ (hstep s s' hinv h)⟩, ?_⟩
  intro s hreach
  have hs : StrongInv s := by
    induction hreach with
    | refl =>
      unfold StrongInv BookedIffActive
      decide
    | tail h1 h2 ih => exact hstep _ _ ih h2
  exact ⟨hs, hbia _ hs⟩

/-- Witness for C1: the state after cancelling the seed booking2 is
reachable and satisfies the booked-iff-active biconditional. -/
theorem booked_iff_active_invariant_witness :
    BookedIffActive (cancelBooking initDB "booking2").state :=
  (booked_iff_active_invariant.2 (cancelBooking initDB "booking2").state
    (Relation.ReflTransGen.single (Step.cancel initDB "booking2"))).2
